import Mathlib

/-!
Verification development for the substrate validator payout utility:
the era payout resolver (worker), the Redis payout cache, the scan range
computation, and the batched claim submission engine, shallowly embedded
as pure Lean functions together with theorems about them.
-/

namespace Payouts

/-- Substrate constant for paged rewards: nominators per page. -/
def NOMINATORS_PER_PAGE : Nat := 512

/-- An unclaimed payout view: validator, era and the list of unclaimed
page indices, as produced by the worker and consumed by submission. -/
structure UnclaimedPayout where
  validator : String
  era : Nat
  pages : List Nat
deriving DecidableEq, Repr

/-- The loop `for p in [0, totalPages) if not claimedPages.includes(p) push p`,
shared by the worker resolver and the cache scan. -/
def unclaimedPagesList (totalPages : Nat) (claimedPages : List Nat) : List Nat :=
  (List.range totalPages).filter (fun p => !(claimedPages.contains p))

/-- The per-era cached record written by `cache.setEra` (field order as in
the worker's object literal). -/
structure EraPayoutStatus where
  validator : String
  era : Nat
  claimedPages : List Nat
  totalPages : Nat
  lastChecked : Nat
deriving DecidableEq, Repr

/-- Validator exposure for one era, in either of the two chain-state
representations the worker understands. -/
inductive Exposure where
  | paged (total pageCount : Nat)
  | clipped (total othersLen : Nat)
deriving DecidableEq, Repr

/-- Total stake of an exposure record. -/
def Exposure.total : Exposure → Nat
  | .paged t _ => t
  | .clipped t _ => t

/-- Page count of an exposure record: the paged form reports it directly,
the clipped form derives `ceil(othersLen / 512)`. -/
def Exposure.pages : Exposure → Nat
  | .paged _ pc => pc
  | .clipped _ othersLen => (othersLen + (NOMINATORS_PER_PAGE - 1)) / NOMINATORS_PER_PAGE

/-- Normalization of the chain's claimed-rewards answer: absent becomes
the empty list, an array stays as is. -/
def normalizeClaimed : Option (List Nat) → List Nat
  | none => []
  | some l => l

/-- The worker's per-(validator, era) resolution: from the exposure and
claimed-rewards chain state it produces the cached EraPayoutStatus and
the optional UnclaimedPayout contributed to the scan result. -/
def resolveEra (validator : String) (era : Nat) (exposure : Option Exposure)
    (claimed : Option (List Nat)) (now : Nat) : EraPayoutStatus × Option UnclaimedPayout :=
  match exposure with
  | none => (⟨validator, era, [], 0, now⟩, none)
  | some ex =>
    if ex.total = 0 then
      (⟨validator, era, [], 0, now⟩, none)
    else
      let claimedPages := normalizeClaimed claimed
      let pc0 := ex.pages
      let pageCount := if pc0 = 0 ∧ claimedPages = [] ∧ 0 < ex.total then 1 else pc0
      let unclaimed := unclaimedPagesList pageCount claimedPages
      (⟨validator, era, claimedPages, pageCount, now⟩,
        if unclaimed.isEmpty then none else some ⟨validator, era, unclaimed⟩)

/-- One built claim transaction: the arguments of the payoutStakers call,
the assigned nonce, and the display record fields pushed alongside it
(the display validator is the 8-character address prefix). -/
structure ClaimTx where
  txValidator : String
  txEra : Nat
  txPage : Nat
  nonce : Nat
  validator : String
  era : Nat
  page : Nat
deriving DecidableEq, Repr

/-- Transactions for the pages of one unclaimed payout, consuming one
nonce per page starting at `n`. -/
def pageTxs (v : String) (e : Nat) : List Nat → Nat → List ClaimTx
  | [], _ => []
  | p :: ps, n => ⟨v, e, p, n, v.take 8, e, p⟩ :: pageTxs v e ps (n + 1)

/-- The submission engine's transaction construction loop: flatten every
(validator, era, page) tuple in input order, incrementing the nonce once
per transaction. -/
def buildTxs : List UnclaimedPayout → Nat → List ClaimTx
  | [], _ => []
  | u :: us, n => pageTxs u.validator u.era u.pages n ++ buildTxs us (n + u.pages.length)

/-- Total number of claim transactions in a batch: one per unclaimed page. -/
def numTxs : List UnclaimedPayout → Nat
  | [] => 0
  | u :: us => u.pages.length + numTxs us

/-- Outcome of `submitPayouts` up to the broadcast decision. -/
inductive SubmitResult where
  | nothingToDo : SubmitResult
  | insufficientBalance (free required : Nat) : SubmitResult
  | broadcast (txs : List ClaimTx) : SubmitResult
deriving DecidableEq, Repr

/-- The submission engine's control flow: empty input is a no-op; the fee
preflight multiplies the representative fee by the number of unclaimed
payout entries and requires `free ≥ totalFee * 2`, throwing before any
transaction is built otherwise; else all transactions are built and
broadcast. -/
def submitPayouts (unclaimed : List UnclaimedPayout) (feePerTx n0 free : Nat) : SubmitResult :=
  let total := unclaimed.length
  if total = 0 then .nothingToDo
  else
    let totalFee := feePerTx * total
    if free < totalFee * 2 then .insufficientBalance free (totalFee * 2)
    else .broadcast (buildTxs unclaimed n0)

section Lemmas

/-- Membership in the unclaimed page list. -/
theorem mem_unclaimedPagesList {totalPages : Nat} {claimedPages : List Nat} {p : Nat} :
    p ∈ unclaimedPagesList totalPages claimedPages ↔ p < totalPages ∧ p ∉ claimedPages := by
  simp [unclaimedPagesList, List.mem_filter, List.mem_range]

/-- The unclaimed page list is strictly sorted. -/
theorem sorted_unclaimedPagesList (totalPages : Nat) (claimedPages : List Nat) :
    List.Sorted (· < ·) (unclaimedPagesList totalPages claimedPages) :=
  (List.sorted_lt_range totalPages).filter _

/-- The unclaimed page list has no duplicates. -/
theorem nodup_unclaimedPagesList (totalPages : Nat) (claimedPages : List Nat) :
    (unclaimedPagesList totalPages claimedPages).Nodup :=
  (List.nodup_range totalPages).filter _

/-- Nonces of the transactions for one payout's pages. -/
theorem pageTxs_map_nonce (v : String) (e : Nat) (ps : List Nat) (n : Nat) :
    (pageTxs v e ps n).map ClaimTx.nonce = List.range' n ps.length := by
  induction ps generalizing n with
  | nil => rfl
  | cons p ps ih => simp [pageTxs, List.range'_succ, ih]

/-- Call-argument tuples of the transactions for one payout's pages. -/
theorem pageTxs_map_args (v : String) (e : Nat) (ps : List Nat) (n : Nat) :
    (pageTxs v e ps n).map (fun t => (t.txValidator, t.txEra, t.txPage))
      = ps.map (fun p => (v, e, p)) := by
  induction ps generalizing n with
  | nil => rfl
  | cons p ps ih => simp [pageTxs, ih]

/-- Nonces of a full batch: the contiguous range starting at the fetched
nonce, of length the number of transactions. -/
theorem buildTxs_map_nonce (us : List UnclaimedPayout) (n0 : Nat) :
    (buildTxs us n0).map ClaimTx.nonce = List.range' n0 (numTxs us) := by
  induction us generalizing n0 with
  | nil => rfl
  | cons u us ih =>
      simp only [buildTxs, numTxs, List.map_append, pageTxs_map_nonce, ih]
      rw [List.range'_append_1]
      congr 1
      omega

/-- Call-argument tuples of a full batch: the flattening of all
(validator, era, page) tuples in input order. -/
theorem buildTxs_map_args (us : List UnclaimedPayout) (n0 : Nat) :
    (buildTxs us n0).map (fun t => (t.txValidator, t.txEra, t.txPage))
      = (us.map (fun u => u.pages.map (fun p => (u.validator, u.era, p)))).flatten := by
  induction us generalizing n0 with
  | nil => rfl
  | cons u us ih => simp [buildTxs, pageTxs_map_args, ih]

end Lemmas

/-- Claim C2: for every totalPages and claimedPages with
claimedPages ⊆ [0, totalPages), the resolver's unclaimed page sequence
equals the set difference [0, totalPages) \ claimedPages, listed in
ascending order with no duplicates. -/
theorem C2_unclaimed_is_sorted_difference (totalPages : Nat) (claimedPages : List Nat)
    (_hsub : ∀ p ∈ claimedPages, p < totalPages) :
    (∀ p, p ∈ unclaimedPagesList totalPages claimedPages ↔ p < totalPages ∧ p ∉ claimedPages)
    ∧ List.Sorted (· < ·) (unclaimedPagesList totalPages claimedPages)
    ∧ (unclaimedPagesList totalPages claimedPages).Nodup :=
  ⟨fun _ => mem_unclaimedPagesList,
   sorted_unclaimedPagesList totalPages claimedPages,
   nodup_unclaimedPagesList totalPages claimedPages⟩

/-- Witness for C2 at totalPages = 5, claimedPages = [0, 2, 4]. -/
theorem C2_witness :
    (∀ p ∈ [0, 2, 4], p < 5)
    ∧ ((∀ p, p ∈ unclaimedPagesList 5 [0, 2, 4] ↔ p < 5 ∧ p ∉ [0, 2, 4])
       ∧ List.Sorted (· < ·) (unclaimedPagesList 5 [0, 2, 4])
       ∧ (unclaimedPagesList 5 [0, 2, 4]).Nodup) :=
  ⟨by decide, C2_unclaimed_is_sorted_difference 5 [0, 2, 4] (by decide)⟩

/-- Claim C4: for every batch built by flattening all (validator, era, page)
tuples of the unclaimed list in input order with fetched nonce n0, the
assigned nonces are exactly n0, n0+1, ..., n0+N-1 with N the number of
transactions, each used exactly once, in construction order. -/
theorem C4_nonces_sequential (unclaimed : List UnclaimedPayout) (n0 : Nat) :
    (buildTxs unclaimed n0).map ClaimTx.nonce = List.range' n0 (numTxs unclaimed)
    ∧ ((buildTxs unclaimed n0).map ClaimTx.nonce).Nodup
    ∧ (buildTxs unclaimed n0).map (fun t => (t.txValidator, t.txEra, t.txPage))
        = (unclaimed.map (fun u => u.pages.map (fun p => (u.validator, u.era, p)))).flatten :=
  ⟨buildTxs_map_nonce unclaimed n0,
   by rw [buildTxs_map_nonce]; exact List.nodup_range' _ _,
   buildTxs_map_args unclaimed n0⟩

/-- Witness for C4 at a two-payout batch with nonce 5. -/
theorem C4_witness :
    (buildTxs [⟨"validatorA", 1, [0, 1]⟩, ⟨"validatorB", 2, [3]⟩] 5).map ClaimTx.nonce
      = List.range' 5 (numTxs [⟨"validatorA", 1, [0, 1]⟩, ⟨"validatorB", 2, [3]⟩]) :=
  (C4_nonces_sequential [⟨"validatorA", 1, [0, 1]⟩, ⟨"validatorB", 2, [3]⟩] 5).1

/-- The default scan range computation: startEra = max(0, currentEra -
historyDepth), endEra = currentEra - 1 (current era is not claimable).
Eras are integers here because the JavaScript arithmetic is signed. -/
def defaultScanRange (currentEra historyDepth : Int) : Int × Int :=
  (max 0 (currentEra - historyDepth), currentEra - 1)

/-- `n` consecutive integers starting at `s`. -/
def intRange (s : Int) : Nat → List Int
  | 0 => []
  | n + 1 => s :: intRange (s + 1) n

/-- The worker's era loop: every era from startEra to endEra inclusive,
empty when endEra < startEra. -/
def scannedEras (startEra endEra : Int) : List Int :=
  intRange startEra (endEra + 1 - startEra).toNat

/-- Membership in a consecutive integer range. -/
theorem mem_intRange {s e : Int} {n : Nat} :
    e ∈ intRange s n ↔ s ≤ e ∧ e < s + n := by
  induction n generalizing s with
  | zero => simp [intRange]
  | succ n ih =>
      simp only [intRange, List.mem_cons, ih]
      omega

/-- Membership in the worker's era loop range. -/
theorem mem_scannedEras {startEra endEra e : Int} :
    e ∈ scannedEras startEra endEra ↔ startEra ≤ e ∧ e ≤ endEra := by
  rw [scannedEras, mem_intRange]
  omega

/-- Claim C8: when exposure is absent or total stake is zero the resolver
returns totalPages = 0 with empty claimedPages (the cacheable negative
result) and contributes no unclaimed payout for that era. -/
theorem C8_inactive_era (validator : String) (era now : Nat)
    (exposure : Option Exposure) (claimed : Option (List Nat))
    (h : exposure = none ∨ ∃ ex, exposure = some ex ∧ ex.total = 0) :
    resolveEra validator era exposure claimed now
      = (⟨validator, era, [], 0, now⟩, none) := by
  rcases h with h | ⟨ex, rfl, htot⟩
  · subst h; rfl
  · simp [resolveEra, htot]

/-- Witness for C8 at a zero-stake clipped exposure. -/
theorem C8_witness :
    resolveEra "validatorA" 3 (some (.clipped 0 17)) (some [0, 1]) 9
      = (⟨"validatorA", 3, [], 0, 9⟩, none) :=
  C8_inactive_era "validatorA" 3 9 (some (.clipped 0 17)) (some [0, 1])
    (Or.inr ⟨.clipped 0 17, rfl, rfl⟩)

/-- Counterexample to claim C3 as stated: with nonzero total stake (5),
computed page count 0, but a nonempty claimed-pages list ([0]), the
resolver leaves totalPages = 0 instead of forcing it to 1 — the code's
special case additionally requires claimedPages to be empty. -/
theorem C3_counterexample :
    Exposure.pages (.paged 5 0) = 0
    ∧ Exposure.total (.paged 5 0) ≠ 0
    ∧ (resolveEra "validatorA" 2 (some (.paged 5 0)) (some [0]) 7).1.totalPages = 0 := by
  decide

/-- Claim C3 amended: when the computed page count is 0, the total stake
is nonzero, and no pages are recorded claimed, the resolver forces
totalPages = 1 and the unclaimed payout is exactly page [0]. -/
theorem C3_amended_staked_no_nominators (validator : String) (era now : Nat)
    (ex : Exposure) (claimed : Option (List Nat))
    (htotal : ex.total ≠ 0) (hpages : ex.pages = 0)
    (hclaimed : normalizeClaimed claimed = []) :
    (resolveEra validator era (some ex) claimed now).1.totalPages = 1
    ∧ (resolveEra validator era (some ex) claimed now).2
        = some ⟨validator, era, [0]⟩ := by
  have h0 : 0 < ex.total := Nat.pos_of_ne_zero htotal
  have hu : unclaimedPagesList 1 [] = [0] := rfl
  simp [resolveEra, htotal, hclaimed, hpages, h0, hu]

/-- Witness for C3 at a paged exposure with stake 5 and page count 0. -/
theorem C3_witness :
    (resolveEra "validatorA" 2 (some (.paged 5 0)) (some []) 7).1.totalPages = 1
    ∧ (resolveEra "validatorA" 2 (some (.paged 5 0)) (some []) 7).2
        = some ⟨"validatorA", 2, [0]⟩ :=
  C3_amended_staked_no_nominators "validatorA" 2 7 (.paged 5 0) (some [])
    (by decide) rfl rfl

/-- Claim C9: for current era K and history depth D the default scan
range covers exactly the eras from max(0, K - D) to K - 1 inclusive, and
era K itself is never scanned. -/
theorem C9_default_range_excludes_current (currentEra historyDepth : Int) :
    (∀ e, e ∈ scannedEras (defaultScanRange currentEra historyDepth).1
                          (defaultScanRange currentEra historyDepth).2
        ↔ max 0 (currentEra - historyDepth) ≤ e ∧ e ≤ currentEra - 1)
    ∧ currentEra ∉ scannedEras (defaultScanRange currentEra historyDepth).1
                               (defaultScanRange currentEra historyDepth).2 := by
  refine ⟨fun e => ?_, fun hmem => ?_⟩
  · exact mem_scannedEras
  · have h2 := (mem_scannedEras.mp hmem).2
    simp only [defaultScanRange] at h2
    omega

/-- Witness for C9 at current era 10 and history depth 4. -/
theorem C9_witness :
    (10 : Int) ∉ scannedEras (defaultScanRange 10 4).1 (defaultScanRange 10 4).2 :=
  (C9_default_range_excludes_current 10 4).2

/-- Counterexample to claim C1 as stated: one unclaimed payout with two
pages yields two claim transactions, and with representative fee 10 and
free balance 25 the claimed preflight bound 2 x 10 x 2 = 40 exceeds the
balance, yet the engine broadcasts both transactions: the code multiplies
the fee by the number of payout entries (1), not by the transaction
count (2). -/
theorem C1_counterexample :
    numTxs [⟨"validatorA", 7, [0, 1]⟩] = 2
    ∧ 25 < 10 * numTxs [⟨"validatorA", 7, [0, 1]⟩] * 2
    ∧ submitPayouts [⟨"validatorA", 7, [0, 1]⟩] 10 0 25
        = .broadcast (buildTxs [⟨"validatorA", 7, [0, 1]⟩] 0) := by
  decide

/-- Claim C1 amended: for a non-empty unclaimed list the engine computes
totalFee as the representative fee multiplied by the number of unclaimed
payout entries (not the per-page transaction count); when the free
balance is below 2 x totalFee it fails before broadcasting anything, and
otherwise it broadcasts the built batch. -/
theorem C1_amended_preflight (unclaimed : List UnclaimedPayout) (feePerTx n0 free : Nat)
    (hne : unclaimed ≠ []) :
    (free < feePerTx * unclaimed.length * 2 →
        submitPayouts unclaimed feePerTx n0 free
          = .insufficientBalance free (feePerTx * unclaimed.length * 2))
    ∧ (¬ free < feePerTx * unclaimed.length * 2 →
        submitPayouts unclaimed feePerTx n0 free = .broadcast (buildTxs unclaimed n0)) := by
  have hl : unclaimed.length ≠ 0 := fun h => hne (List.length_eq_zero.mp h)
  constructor
  · intro hfree
    simp [submitPayouts, hl, hfree]
  · intro hfree
    simp [submitPayouts, hl, hfree]

/-- Witness for C1 at a single one-page payout, fee 10, balance 5. -/
theorem C1_witness :
    submitPayouts [⟨"validatorA", 7, [0]⟩] 10 0 5
      = .insufficientBalance 5 (10 * [(⟨"validatorA", 7, [0]⟩ : UnclaimedPayout)].length * 2) :=
  (C1_amended_preflight [⟨"validatorA", 7, [0]⟩] 10 0 5 (by decide)).1 (by decide)

/-- Outcome of awaiting one submitted transaction to finalization:
either it finalized (with or without a dispatch error) or the await
threw with an error message. -/
inductive TxOutcome where
  | finalized (dispatchError : Bool)
  | failed (msg : String)
deriving DecidableEq, Repr

/-- The per-transaction record produced by the submission engine's
then/catch handlers. -/
structure TxResult where
  ok : Bool
  validator : String
  era : Nat
  page : Nat
  err : Option String
deriving DecidableEq, Repr

/-- The then/catch pair on one submission: a finalized transaction is ok
iff it had no dispatch error; a thrown error yields ok = false with the
message recorded. -/
def settleOne (t : ClaimTx) : TxOutcome → TxResult
  | .finalized de => ⟨!de, t.validator, t.era, t.page, none⟩
  | .failed m => ⟨false, t.validator, t.era, t.page, some m⟩

/-- The allSettled join over the batch: each transaction is settled with
its own outcome, independently of its siblings. -/
def settleAll (txs : List ClaimTx) (outcomes : List TxOutcome) : List TxResult :=
  List.zipWith settleOne txs outcomes

/-- Aggregate success count in the settlement report. -/
def reportOk (rs : List TxResult) : Nat := (rs.filter (fun r => r.ok)).length

/-- The failed-transaction list in the settlement report. -/
def reportFailed (rs : List TxResult) : List TxResult := rs.filter (fun r => !r.ok)

/-- The i-th settled result is determined by the i-th transaction and its
own outcome alone. -/
theorem settleAll_getElem (txs : List ClaimTx) (outcomes : List TxOutcome) (i : Nat) :
    (settleAll txs outcomes)[i]?
      = txs[i]?.bind (fun t => outcomes[i]?.map (settleOne t)) := by
  induction txs generalizing outcomes i with
  | nil => simp [settleAll]
  | cons t ts ih =>
      cases outcomes with
      | nil => simp [settleAll]
      | cons o os =>
          cases i with
          | zero => simp [settleAll]
          | succ i => simpa [settleAll] using ih os i

/-- Every settled result comes from a transaction/outcome pair of the
batch. -/
theorem settleAll_mem {txs : List ClaimTx} {outcomes : List TxOutcome} {r : TxResult}
    (h : r ∈ settleAll txs outcomes) :
    ∃ t o, (t, o) ∈ txs.zip outcomes ∧ r = settleOne t o := by
  induction txs generalizing outcomes with
  | nil => simp [settleAll] at h
  | cons t ts ih =>
      cases outcomes with
      | nil => simp [settleAll] at h
      | cons o os =>
          simp only [settleAll, List.zipWith_cons_cons] at h
          rcases List.mem_cons.mp h with h | h
          · exact ⟨t, o, by simp, h⟩
          · rcases ih h with ⟨t2, o2, hm, hr⟩
            exact ⟨t2, o2, by simp [hm], hr⟩

/-- A filter and its negation partition a list's length. -/
theorem length_filter_add_not {α : Type} (p : α → Bool) (l : List α) :
    (l.filter p).length + (l.filter (fun a => !(p a))).length = l.length := by
  induction l with
  | nil => rfl
  | cons a l ih =>
      cases h : p a <;> simp [List.filter_cons, h] <;> omega

/-- Claim C6: each transaction's outcome is captured independently (all
results present, the i-th depending only on the i-th pair), the report's
success count plus its failed list's length is the batch total, and each
failed entry carries its transaction's validator, era, page and, when
the await threw, the error message. -/
theorem C6_settled_report (txs : List ClaimTx) (outcomes : List TxOutcome)
    (hlen : outcomes.length = txs.length) :
    (settleAll txs outcomes).length = txs.length
    ∧ (∀ i : Nat, (settleAll txs outcomes)[i]?
          = txs[i]?.bind (fun t => outcomes[i]?.map (settleOne t)))
    ∧ reportOk (settleAll txs outcomes) + (reportFailed (settleAll txs outcomes)).length
        = txs.length
    ∧ (∀ r ∈ reportFailed (settleAll txs outcomes),
        r.ok = false
        ∧ ∃ t o, (t, o) ∈ txs.zip outcomes ∧ r = settleOne t o
            ∧ r.validator = t.validator ∧ r.era = t.era ∧ r.page = t.page
            ∧ (∀ m, o = .failed m → r.err = some m)) := by
  have hlen2 : (settleAll txs outcomes).length = txs.length := by
    simp [settleAll, List.length_zipWith, hlen]
  refine ⟨hlen2, settleAll_getElem txs outcomes, ?_, ?_⟩
  · have := length_filter_add_not (fun r => r.ok) (settleAll txs outcomes)
    simpa [reportOk, reportFailed, hlen2] using this
  · intro r hr
    have hmem := List.mem_filter.mp hr
    have hok : r.ok = false := by
      have := hmem.2
      simpa using this
    rcases settleAll_mem hmem.1 with ⟨t, o, hto, hr2⟩
    refine ⟨hok, t, o, hto, hr2, ?_, ?_, ?_, ?_⟩
    · cases o <;> simp [hr2, settleOne]
    · cases o <;> simp [hr2, settleOne]
    · cases o <;> simp [hr2, settleOne]
    · intro m hm
      subst hm
      simp [hr2, settleOne]

/-- Witness for C6 at a two-transaction batch with one thrown failure. -/
theorem C6_witness :
    reportOk (settleAll
        [⟨"validatorA", 1, 0, 5, "validato", 1, 0⟩, ⟨"validatorB", 2, 1, 6, "validato", 2, 1⟩]
        [.finalized false, .failed "Priority is too low"])
      + (reportFailed (settleAll
        [⟨"validatorA", 1, 0, 5, "validato", 1, 0⟩, ⟨"validatorB", 2, 1, 6, "validato", 2, 1⟩]
        [.finalized false, .failed "Priority is too low"])).length
      = 2 :=
  (C6_settled_report
    [⟨"validatorA", 1, 0, 5, "validato", 1, 0⟩, ⟨"validatorB", 2, 1, 6, "validato", 2, 1⟩]
    [.finalized false, .failed "Priority is too low"] rfl).2.2.1

/-- Cache key triple, the structured form of payout:chain:validator:era. -/
structure CacheKey where
  chain : String
  validator : String
  era : Nat
deriving DecidableEq, Repr

/-- The Redis keyspace for payout entries, as an association list. -/
abbrev Store := List (CacheKey × EraPayoutStatus)

/-- Redis GET of one entry. -/
def lookupStore : Store → CacheKey → Option EraPayoutStatus
  | [], _ => none
  | (k1, v1) :: rest, k => if k1 = k then some v1 else lookupStore rest k

/-- Redis SETEX of one entry (TTL bookkeeping not modelled). -/
def setStore : Store → CacheKey → EraPayoutStatus → Store
  | [], k, v => [(k, v)]
  | (k1, v1) :: rest, k, v =>
      if k1 = k then (k, v) :: rest else (k1, v1) :: setStore rest k v

/-- The Lua merge of claimed pages: both lists are poured into a set,
which is converted back to an array and sorted. -/
def mergePages (old new : List Nat) : List Nat :=
  ((old ++ new).dedup).insertionSort (· ≤ ·)

/-- updateClaimedPages: the atomic Lua read-modify-write. Returns the new
store and the script's result; a missing entry leaves the store unchanged
and returns false. -/
def updateClaimedPages (s : Store) (chain validator : String) (era : Nat)
    (pages : List Nat) (now : Nat) : Store × Bool :=
  match lookupStore s ⟨chain, validator, era⟩ with
  | none => (s, false)
  | some e =>
      (setStore s ⟨chain, validator, era⟩
        { e with claimedPages := mergePages e.claimedPages pages, lastChecked := now },
       true)

/-- The merged claimed-pages list is sorted. -/
theorem mergePages_sorted (a b : List Nat) :
    List.Sorted (· ≤ ·) (mergePages a b) :=
  List.sorted_insertionSort _ _

/-- The merged claimed-pages list has no duplicates. -/
theorem mergePages_nodup (a b : List Nat) : (mergePages a b).Nodup :=
  ((List.perm_insertionSort _ _).nodup_iff).mpr ((a ++ b).nodup_dedup)

/-- Membership in the merged claimed-pages list is the union. -/
theorem mergePages_mem {a b : List Nat} {x : Nat} :
    x ∈ mergePages a b ↔ x ∈ a ∨ x ∈ b := by
  unfold mergePages
  rw [(List.perm_insertionSort _ _).mem_iff, List.mem_dedup, List.mem_append]

/-- Sorted duplicate-free lists with the same members are equal. -/
theorem sorted_nodup_eq {l1 l2 : List Nat}
    (hs1 : List.Sorted (· ≤ ·) l1) (hs2 : List.Sorted (· ≤ ·) l2)
    (hn1 : l1.Nodup) (hn2 : l2.Nodup) (hmem : ∀ x, x ∈ l1 ↔ x ∈ l2) : l1 = l2 :=
  List.eq_of_perm_of_sorted ((List.perm_ext_iff_of_nodup hn1 hn2).mpr hmem) hs1 hs2

/-- Merging the same page set again does not change the result. -/
theorem mergePages_idem (a b : List Nat) :
    mergePages (mergePages a b) b = mergePages a b :=
  sorted_nodup_eq (mergePages_sorted _ _) (mergePages_sorted _ _)
    (mergePages_nodup _ _) (mergePages_nodup _ _)
    (fun x => by simp only [mergePages_mem]; tauto)

/-- A SETEX is visible to a GET of the same key. -/
theorem lookup_setStore_self (s : Store) (k : CacheKey) (v : EraPayoutStatus) :
    lookupStore (setStore s k v) k = some v := by
  induction s with
  | nil => simp [setStore, lookupStore]
  | cons kv rest ih =>
      rcases kv with ⟨k1, v1⟩
      by_cases h : k1 = k
      · simp [setStore, lookupStore, h]
      · simp [setStore, lookupStore, h, ih]

/-- A SETEX leaves every other key's entry unchanged. -/
theorem lookup_setStore_ne (s : Store) (k k2 : CacheKey) (v : EraPayoutStatus)
    (h : k2 ≠ k) : lookupStore (setStore s k v) k2 = lookupStore s k2 := by
  induction s with
  | nil => simp [setStore, lookupStore, Ne.symm h]
  | cons kv rest ih =>
      rcases kv with ⟨k1, v1⟩
      by_cases h1 : k1 = k
      · subst h1
        simp [setStore, lookupStore, Ne.symm h]
      · by_cases h2 : k1 = k2
        · simp [setStore, lookupStore, h1, h2, h]
        · simp [setStore, lookupStore, h1, h2, ih]

/-- Claim C5: updateClaimedPages is idempotent (merging the same page set
twice leaves the stored claimedPages as after one merge), merging two
page sets accumulates their union into the existing entry with no lost
update, and the operation returns false exactly when no entry exists for
the key. -/
theorem C5_merge_algebra (s : Store) (chain validator : String) (era : Nat)
    (p1 p2 : List Nat) (t1 t2 : Nat) :
    ((lookupStore (updateClaimedPages (updateClaimedPages s chain validator era p1 t1).1
          chain validator era p1 t2).1 ⟨chain, validator, era⟩).map EraPayoutStatus.claimedPages
      = (lookupStore (updateClaimedPages s chain validator era p1 t1).1
          ⟨chain, validator, era⟩).map EraPayoutStatus.claimedPages)
    ∧ (List.Disjoint p1 p2 → ∀ e, lookupStore s ⟨chain, validator, era⟩ = some e →
        ((lookupStore (updateClaimedPages (updateClaimedPages s chain validator era p1 t1).1
            chain validator era p2 t2).1 ⟨chain, validator, era⟩).map EraPayoutStatus.claimedPages
          = some (mergePages (mergePages e.claimedPages p1) p2))
        ∧ ∀ x, x ∈ mergePages (mergePages e.claimedPages p1) p2
            ↔ (x ∈ e.claimedPages ∨ x ∈ p1 ∨ x ∈ p2))
    ∧ ((updateClaimedPages s chain validator era p1 t1).2 = false
        ↔ lookupStore s ⟨chain, validator, era⟩ = none) := by
  refine ⟨?_, ?_, ?_⟩
  · cases h : lookupStore s ⟨chain, validator, era⟩ with
    | none => simp [updateClaimedPages, h]
    | some e =>
        simp [updateClaimedPages, h, lookup_setStore_self, mergePages_idem]
  · intro _hdisj e he
    constructor
    · simp [updateClaimedPages, he, lookup_setStore_self]
    · intro x
      simp only [mergePages_mem]
      tauto
  · cases h : lookupStore s ⟨chain, validator, era⟩ with
    | none => simp [updateClaimedPages, h]
    | some e => simp [updateClaimedPages, h]

/-- Witness for C5 on a one-entry store, merging [1] then [2] into
claimed pages [0]. -/
theorem C5_witness :
    ((lookupStore (updateClaimedPages (updateClaimedPages
          [(⟨"kusama", "validatorA", 3⟩, ⟨"validatorA", 3, [0], 3, 5⟩)]
          "kusama" "validatorA" 3 [1] 10).1
        "kusama" "validatorA" 3 [2] 11).1 ⟨"kusama", "validatorA", 3⟩).map
            EraPayoutStatus.claimedPages
      = some (mergePages (mergePages [0] [1]) [2]))
    ∧ (2 ∈ mergePages (mergePages [0] [1]) [2] ↔ (2 ∈ [0] ∨ 2 ∈ [1] ∨ 2 ∈ [2])) :=
  ⟨((C5_merge_algebra [(⟨"kusama", "validatorA", 3⟩, ⟨"validatorA", 3, [0], 3, 5⟩)]
      "kusama" "validatorA" 3 [1] [2] 10 11).2.1 (by intro a h1 h2; simp_all)
      ⟨"validatorA", 3, [0], 3, 5⟩ (by decide)).1,
   ((C5_merge_algebra [(⟨"kusama", "validatorA", 3⟩, ⟨"validatorA", 3, [0], 3, 5⟩)]
      "kusama" "validatorA" 3 [1] [2] 10 11).2.1 (by intro a h1 h2; simp_all)
      ⟨"validatorA", 3, [0], 3, 5⟩ (by decide)).2 2⟩

/-- Claim C10: for an existing entry the merge replaces claimedPages with
the sorted union and refreshes lastChecked, leaving validator, era and
totalPages unchanged; every other key's entry is untouched. -/
theorem C10_merge_frame (s : Store) (chain validator : String) (era : Nat)
    (pages : List Nat) (now : Nat) (e : EraPayoutStatus)
    (h : lookupStore s ⟨chain, validator, era⟩ = some e) :
    lookupStore (updateClaimedPages s chain validator era pages now).1
        ⟨chain, validator, era⟩
      = some { e with claimedPages := mergePages e.claimedPages pages, lastChecked := now }
    ∧ (∀ k2, k2 ≠ (⟨chain, validator, era⟩ : CacheKey) →
        lookupStore (updateClaimedPages s chain validator era pages now).1 k2
          = lookupStore s k2) := by
  constructor
  · simp only [updateClaimedPages, h, lookup_setStore_self]
  · intro k2 hk2
    simp only [updateClaimedPages, h]
    exact lookup_setStore_ne s _ k2 _ hk2

/-- Witness for C10 on a one-entry store. -/
theorem C10_witness :
    lookupStore (updateClaimedPages
        [(⟨"kusama", "validatorA", 3⟩, ⟨"validatorA", 3, [0], 3, 5⟩)]
        "kusama" "validatorA" 3 [1] 10).1 ⟨"kusama", "validatorA", 3⟩
      = some { (⟨"validatorA", 3, [0], 3, 5⟩ : EraPayoutStatus) with
          claimedPages := mergePages [0] [1], lastChecked := 10 } :=
  (C10_merge_frame [(⟨"kusama", "validatorA", 3⟩, ⟨"validatorA", 3, [0], 3, 5⟩)]
    "kusama" "validatorA" 3 [1] 10 ⟨"validatorA", 3, [0], 3, 5⟩ (by decide)).1

/-- The view type produced by getUnclaimedPayouts. -/
structure UnclaimedView where
  validator : String
  era : Nat
  unclaimedPages : List Nat
deriving DecidableEq, Repr

/-- The body of getUnclaimedPayouts for one scanned key/value pair:
chain pattern filter, era filter against currentEra on the parsed key,
unclaimed page reconstruction, kept only when non-empty. -/
def entryUnclaimed (chain : String) (currentEra : Nat)
    (kv : CacheKey × EraPayoutStatus) : Option UnclaimedView :=
  if kv.1.chain = chain ∧ kv.1.era < currentEra then
    let up := unclaimedPagesList kv.2.totalPages kv.2.claimedPages
    if up.isEmpty then none else some ⟨kv.2.validator, kv.2.era, up⟩
  else none

/-- getUnclaimedPayouts: the SCAN loop over all entries of a chain. -/
def getUnclaimedPayouts (s : Store) (chain : String) (currentEra : Nat) :
    List UnclaimedView :=
  s.filterMap (entryUnclaimed chain currentEra)

/-- Claim C7: on a store whose keys agree with their entries' eras, every
returned unclaimed view has era < currentEra and non-empty pages
reconstructed as the set difference from its cache entry; an entry whose
claimedPages covers all of [0, totalPages) (including totalPages = 0)
contributes nothing. -/
theorem C7_scan_unclaimed (s : Store) (chain : String) (currentEra : Nat)
    (hwf : ∀ kv ∈ s, kv.1.era = kv.2.era) :
    (∀ v ∈ getUnclaimedPayouts s chain currentEra,
        v.era < currentEra ∧ v.unclaimedPages ≠ []
        ∧ ∃ kv ∈ s, kv.1.chain = chain ∧ kv.2.validator = v.validator
            ∧ kv.2.era = v.era
            ∧ v.unclaimedPages = unclaimedPagesList kv.2.totalPages kv.2.claimedPages)
    ∧ (∀ kv ∈ s, (∀ p < kv.2.totalPages, p ∈ kv.2.claimedPages) →
        entryUnclaimed chain currentEra kv = none) := by
  constructor
  · intro v hv
    rcases List.mem_filterMap.mp hv with ⟨kv, hkv, heq⟩
    unfold entryUnclaimed at heq
    by_cases hc : kv.1.chain = chain ∧ kv.1.era < currentEra
    · rw [if_pos hc] at heq
      by_cases hemp : (unclaimedPagesList kv.2.totalPages kv.2.claimedPages).isEmpty
      · simp [hemp] at heq
      · rw [if_neg hemp] at heq
        have hv2 := Option.some.inj heq
        refine ⟨?_, ?_, kv, hkv, hc.1, ?_, ?_, ?_⟩
        · rw [← hv2]
          exact (hwf kv hkv) ▸ hc.2
        · rw [← hv2]
          intro hnil
          simp only at hnil
          exact hemp (by simp [hnil])
        · rw [← hv2]
        · rw [← hv2]
        · rw [← hv2]
    · rw [if_neg hc] at heq
      exact absurd heq (by simp)
  · intro kv hkv hcov
    have hup : unclaimedPagesList kv.2.totalPages kv.2.claimedPages = [] := by
      apply List.eq_nil_iff_forall_not_mem.mpr
      intro p hp
      rcases mem_unclaimedPagesList.mp hp with ⟨h1, h2⟩
      exact h2 (hcov p h1)
    unfold entryUnclaimed
    by_cases hc : kv.1.chain = chain ∧ kv.1.era < currentEra
    · rw [if_pos hc]
      simp [hup]
    · exact if_neg hc

/-- Witness for C7 on a two-entry store with one fully claimed entry. -/
theorem C7_witness :
    entryUnclaimed "kusama" 5 (⟨"kusama", "validatorA", 2⟩, ⟨"validatorA", 2, [0], 1, 9⟩)
      = none :=
  (C7_scan_unclaimed
      [(⟨"kusama", "validatorA", 2⟩, ⟨"validatorA", 2, [0], 1, 9⟩),
       (⟨"kusama", "validatorB", 2⟩, ⟨"validatorB", 2, [0], 2, 9⟩)]
      "kusama" 5 (by decide)).2
    (⟨"kusama", "validatorA", 2⟩, ⟨"validatorA", 2, [0], 1, 9⟩)
    (by decide) (by decide)

end Payouts
